import Mathlib

/-
Verification of the distributed coordination core of the zapier-scraper
repository: the Redis-backed lease/completion coordinator
(services/redisService.js), the worker loop of the distributed app scraper
(processApp with its local fast-path lock cache), and the fleet monitor
(monitor.js).

The shared Redis store is embedded as an association list from string keys
to entries carrying a structured value and an optional absolute expiry
time.  `SET k v EX t` issued at time `now` stores expiry `now + t`; a key
is live at `now` when it has no expiry or `now` is strictly below the
expiry, matching Redis TTL semantics.  A `MULTI`/`EXEC` transaction is
embedded as a single state transition, matching its atomicity.  Scraped
payloads are opaque strings; times are naturals (seconds for the store,
as in the service code; the monitor works in milliseconds and is embedded
over the integers, as JavaScript subtraction of timestamps can be
negative).
-/

namespace ZapierScraper

/-- Scraped app payload, treated as opaque data (the core never inspects it). -/
abbrev AppData := String

/-- The per-worker machineStatus object that is heartbeat to the store
(fields as built in the worker scripts). -/
structure MachineStatusVal where
  machine_id : String
  started_at : Nat
  last_active : Nat
  processed_count : Nat
  failed_count : Nat
  current_app : Option String
  current_category : Option String
deriving DecidableEq, Repr

/-- Structured stored values: the JSON objects written by RedisService.
A lease records the claiming machine and start time; a completion records
the payload plus processed_by/processed_at; a heartbeat records the
machineStatus snapshot plus last_update. -/
inductive RVal where
  | lease (machine_id : String) (started_at : Nat)
  | appData (payload : AppData) (processed_by : String) (processed_at : Nat)
  | mstatus (st : MachineStatusVal) (last_update : Nat)
deriving DecidableEq, Repr

/-- One stored entry: value plus optional absolute expiry time. -/
structure RedisEntry where
  val : RVal
  expiresAt : Option Nat
deriving DecidableEq, Repr

/-- The shared store: an association list, first binding wins. -/
abbrev RedisState := List (String × RedisEntry)

/-- Key lookup (first binding). -/
def rget : RedisState → String → Option RedisEntry
  | [], _ => none
  | (k', e) :: rest, k => if k' = k then some e else rget rest k

/-- SET: install a binding, shadowing any previous one. -/
def rset (s : RedisState) (k : String) (e : RedisEntry) : RedisState :=
  (k, e) :: s

/-- DEL: drop every binding of the key. -/
def rdel (s : RedisState) (k : String) : RedisState :=
  s.filter (fun q => q.1 != k)

/-- An entry is live at `now` when it has no expiry or has not yet reached it. -/
def entryLive (e : RedisEntry) (now : Nat) : Bool :=
  match e.expiresAt with
  | none => true
  | some t => now < t

/-- GET as seen by clients: a value only while its entry is live. -/
def rgetLive (s : RedisState) (now : Nat) (k : String) : Option RVal :=
  match rget s k with
  | some e => if entryLive e now then some e.val else none
  | none => none

/-- EXISTS as seen by clients. -/
def existsLive (s : RedisState) (now : Nat) (k : String) : Bool :=
  (rgetLive s now k).isSome

/-- PROCESSING_EXPIRY from services/redisService.js (1 hour in seconds). -/
def PROCESSING_EXPIRY : Nat := 3600

/-- STATUS_EXPIRY from services/redisService.js (90 seconds). -/
def STATUS_EXPIRY : Nat := 90

/-- Lease key, exactly as interpolated in redisService.js (no case
normalization of the app name). -/
def processingKey (appName : String) : String :=
  "app:processing:" ++ appName

/-- Completion-marker key, exactly as interpolated in redisService.js. -/
def dataKey (appName : String) : String :=
  "app:data:" ++ appName

/-- Heartbeat key written by RedisService.updateMachineStatus. -/
def statusKey (machineId : String) : String :=
  "status:" ++ machineId

/-- Result of RedisService.checkAppStatus. -/
structure AppStatus where
  isProcessing : Bool
  isCompleted : Bool
deriving DecidableEq, Repr

/-- RedisService.checkAppStatus: GET the lease key and EXISTS the data key
(two independent reads, embedded against one snapshot). -/
def checkAppStatus (s : RedisState) (now : Nat) (appName : String) : AppStatus :=
  { isProcessing := existsLive s now (processingKey appName)
    isCompleted := existsLive s now (dataKey appName) }

/-- RedisService.markAppProcessing: a plain SET with EX PROCESSING_EXPIRY.
Note there is no NX flag: the write is unconditional and replaces any
existing lease. -/
def markAppProcessing (machineId appName : String) (now : Nat) (s : RedisState) : RedisState :=
  rset s (processingKey appName)
    { val := RVal.lease machineId now, expiresAt := some (now + PROCESSING_EXPIRY) }

/-- RedisService.markAppCompleted: a MULTI of SET data-key (no expiry) and
DEL lease-key, embedded as one atomic transition. -/
def markAppCompleted (machineId appName : String) (d : AppData) (now : Nat)
    (s : RedisState) : RedisState :=
  rdel (rset s (dataKey appName)
    { val := RVal.appData d machineId now, expiresAt := none }) (processingKey appName)

/-- RedisService.updateMachineStatus: SET of the heartbeat key with EX
STATUS_EXPIRY. -/
def updateMachineStatus (machineId : String) (st : MachineStatusVal) (now : Nat)
    (s : RedisState) : RedisState :=
  rset s (statusKey machineId)
    { val := RVal.mstatus st now, expiresAt := some (now + STATUS_EXPIRY) }

/-- Lease release as performed on the error paths of the analyzer stages
(redisService.client.del of the lease key). -/
def releaseApp (appName : String) (s : RedisState) : RedisState :=
  rdel s (processingKey appName)

/-- The worker's claim sequence as coded in processApp: read checkAppStatus,
skip on a completion or a live lease, otherwise markAppProcessing.  The
boolean is true exactly when the claim succeeded.  This is two separate
store operations in the source (a read, then an unconditional write); the
run of the pair with no interleaving is the best case for the code. -/
def claimApp (machineId appName : String) (now : Nat) (s : RedisState) : Bool × RedisState :=
  let st := checkAppStatus s now appName
  if st.isCompleted then (false, s)
  else if st.isProcessing then (false, s)
  else (true, markAppProcessing machineId appName now s)

/-- Whether a check-then-claim attempt would observe the item as free
(the guard of the worker's claim sequence). -/
def claimCheckFree (s : RedisState) (now : Nat) (appName : String) : Bool :=
  let st := checkAppStatus s now appName
  !st.isCompleted && !st.isProcessing

/-- The machine currently recorded in the live lease of an item, if any. -/
def leaseHolder (s : RedisState) (now : Nat) (appName : String) : Option String :=
  match rgetLive s now (processingKey appName) with
  | some (RVal.lease m _) => some m
  | _ => none

/-- Store-level operations performed by coordinator clients (any machine). -/
inductive Op where
  | claim (machineId appName : String) (now : Nat)
  | complete (machineId appName : String) (d : AppData) (now : Nat)
  | release (appName : String)
  | heartbeat (machineId : String) (st : MachineStatusVal) (now : Nat)

/-- Apply one client operation to the store. -/
def applyOp (s : RedisState) : Op → RedisState
  | Op.claim mid app now => (claimApp mid app now s).2
  | Op.complete mid app d now => markAppCompleted mid app d now s
  | Op.release app => releaseApp app s
  | Op.heartbeat mid st now => updateMachineStatus mid st now s

/-- Run a sequence of client operations. -/
def runOps (s : RedisState) (ops : List Op) : RedisState :=
  ops.foldl applyOp s

/-- MAX_RETRIES from the scraper CONFIG. -/
def MAX_RETRIES : Nat := 3

/-- Return value of processApp. -/
structure ProcResult where
  processed : Bool
  skipped : Bool
deriving DecidableEq, Repr

/-- One worker process: its view of the shared store, its local fast-path
lock cache (the lock/ directory: the set of lock-file basenames), and its
machineStatus counters. -/
structure WorkerState where
  redis : RedisState
  localCache : List String
  processedCount : Nat
  failedCount : Nat

/-- The toLowerCase normalization applied by the local cache helpers
(per-character lowering of the slug). -/
def lowerName (s : String) : String :=
  String.mk (s.data.map Char.toLower)

/-- checkLocalCache: a lock file named after the lowercased app name. -/
def checkLocalCache (w : WorkerState) (appName : String) : Bool :=
  w.localCache.contains (lowerName appName)

/-- markLocalCache: write the lock file for the lowercased app name. -/
def markLocalCache (w : WorkerState) (appName : String) : WorkerState :=
  { w with localCache := lowerName appName :: w.localCache }

/-- processApp from the distributed apps scraper (part_002): local cache
check, remote status check, claim, scrape, then complete or retry.
`scrape retryCount` is the outcome of the external scrapeApp call on the
given attempt (`none` embeds the null return of a failed scrape).  The
local file write of the payload goes to the external result store and is
not part of the coordination state.  Note the failure path: no release of
the lease, and the recursive retry re-runs the full status check. -/
def processApp (machineId appName : String) (scrape : Nat → Option AppData)
    (now : Nat) (retryCount : Nat) (w : WorkerState) : ProcResult × WorkerState :=
  if checkLocalCache w appName then
    ({ processed := false, skipped := true }, w)
  else
    let st := checkAppStatus w.redis now appName
    if st.isCompleted then
      ({ processed := false, skipped := true }, markLocalCache w appName)
    else if st.isProcessing then
      ({ processed := false, skipped := true }, w)
    else
      let w1 : WorkerState := { w with redis := markAppProcessing machineId appName now w.redis }
      match scrape retryCount with
      | none =>
        if _h : retryCount < MAX_RETRIES then
          processApp machineId appName scrape now (retryCount + 1) w1
        else
          ({ processed := false, skipped := false },
            { w1 with failedCount := w1.failedCount + 1 })
      | some d =>
        let w2 : WorkerState := { w1 with redis := markAppCompleted machineId appName d now w1.redis }
        let w3 := markLocalCache w2 appName
        ({ processed := true, skipped := false },
          { w3 with processedCount := w3.processedCount + 1 })
termination_by MAX_RETRIES - retryCount
decreasing_by omega

/-- A worker at start: empty lock directory, empty counters, sharing the
(initially empty) store. -/
def initWorker : WorkerState :=
  { redis := [], localCache := [], processedCount := 0, failedCount := 0 }

/-- System-level steps seen by one worker: its own processApp runs, or
store operations by other machines. -/
inductive WOp where
  | process (machineId appName : String) (scrape : Nat → Option AppData) (now : Nat)
  | foreign (op : Op)

/-- Apply a system step to the worker's state. -/
def applyWOp (w : WorkerState) : WOp → WorkerState
  | WOp.process mid app scrape now => (processApp mid app scrape now 0 w).2
  | WOp.foreign op => { w with redis := applyOp w.redis op }

/-- Run a sequence of system steps from a worker state. -/
def runWOps (w : WorkerState) (ops : List WOp) : WorkerState :=
  ops.foldl applyWOp w

/-- MACHINE_INACTIVE_THRESHOLD from monitor.js (90000 ms). -/
def MACHINE_INACTIVE_THRESHOLD : Int := 90000

/-- The monitor's activity derivation: lastActiveAgo strictly below the
threshold (monitor.js displayStats). -/
def isActive (now last_active : Int) : Bool :=
  now - last_active < MACHINE_INACTIVE_THRESHOLD

/-- The status cell rendered for a machine row (colors stripped). -/
def statusCell (now last_active : Int) : String :=
  if isActive now last_active then "●" else "○"

/-- Glob match for the patterns the monitor feeds to KEYS: a literal
pattern body followed by `*` matches any key it prefixes. -/
def matchesPrefix (pat k : String) : Bool :=
  pat.data.isPrefixOf k.data

/-- The keys the monitor's machine table is built from each tick
(KEYS machine:status:*). -/
def monitorMachineKeys (s : RedisState) : List String :=
  (s.filter (fun q => matchesPrefix "machine:status:" q.1)).map (fun q => q.1)

/-- Entry under a completion-marker key (app:data: prefix). -/
def isDataEntry (q : String × RedisEntry) : Bool :=
  matchesPrefix "app:data:" q.1

/-- All completion markers in the store are persistent (stored without
expiry).  Holds in every state the coordinator can produce, since
markAppCompleted is the only writer of app:data: keys and sets no TTL. -/
def dataPersistent (s : RedisState) : Prop :=
  ∀ q ∈ s, isDataEntry q = true → q.2.expiresAt = none

instance (s : RedisState) : Decidable (dataPersistent s) :=
  List.decidableBAll _ s

/-- A completion marker for the item is present and can never expire. -/
def markerPersists (s : RedisState) (appName : String) : Prop :=
  ∃ e, rget s (dataKey appName) = some e ∧ e.expiresAt = none

/-- Soundness of the local fast-path cache: every cached name is the
normalization of some item that has a persistent remote completion
marker. -/
def cacheSound (w : WorkerState) : Prop :=
  ∀ name ∈ w.localCache,
    ∃ appName, lowerName appName = name ∧ markerPersists w.redis appName

end ZapierScraper

namespace ZapierScraper

/-! Basic store lemmas. -/

theorem data_append (a b : String) : (a ++ b).data = a.data ++ b.data := by
  cases a; cases b; rfl

theorem rget_rset (s : RedisState) (k k' : String) (e : RedisEntry) :
    rget (rset s k e) k' = if k = k' then some e else rget s k' := by
  simp [rget, rset]

theorem rget_rdel (s : RedisState) (k k' : String) :
    rget (rdel s k) k' = if k' = k then none else rget s k' := by
  induction s with
  | nil => simp [rget, rdel]
  | cons q rest ih =>
    obtain ⟨kq, eq'⟩ := q
    by_cases h1 : kq = k <;> by_cases h2 : kq = k' <;>
      simp_all [rget, rdel, List.filter_cons]

theorem rget_mem {s : RedisState} {k : String} {e : RedisEntry}
    (h : rget s k = some e) : (k, e) ∈ s := by
  induction s with
  | nil => simp [rget] at h
  | cons q rest ih =>
    obtain ⟨kq, eq'⟩ := q
    by_cases h1 : kq = k
    · subst h1
      simp [rget] at h
      subst h
      exact List.mem_cons_self _ _
    · simp [rget, h1] at h
      exact List.mem_cons_of_mem _ (ih h)

/-! Key-space facts: the three key families are pairwise disjoint, and the
key constructors are injective on the raw identifier. -/

theorem processingKey_ne_dataKey (x y : String) : processingKey x ≠ dataKey y := by
  intro h
  have h' := congrArg String.data h
  rw [processingKey, dataKey, data_append, data_append] at h'
  simp [List.cons.injEq] at h'

theorem statusKey_ne_dataKey (x y : String) : statusKey x ≠ dataKey y := by
  intro h
  have h' := congrArg String.data h
  rw [statusKey, dataKey, data_append, data_append] at h'
  simp [List.cons.injEq] at h'

theorem processingKey_inj (x y : String) : processingKey x = processingKey y → x = y := by
  intro h
  have h' := congrArg String.data h
  rw [processingKey, processingKey, data_append, data_append] at h'
  have h2 : x.data = y.data := List.append_cancel_left h'
  cases x; cases y; exact congrArg String.mk h2

theorem dataKey_inj (x y : String) : dataKey x = dataKey y → x = y := by
  intro h
  have h' := congrArg String.data h
  rw [dataKey, dataKey, data_append, data_append] at h'
  have h2 : x.data = y.data := List.append_cancel_left h'
  cases x; cases y; exact congrArg String.mk h2

theorem isDataEntry_processingKey (x : String) (e : RedisEntry) :
    isDataEntry (processingKey x, e) = false := by
  cases x; rfl

theorem isDataEntry_statusKey (x : String) (e : RedisEntry) :
    isDataEntry (statusKey x, e) = false := by
  cases x; rfl

theorem isDataEntry_dataKey (x : String) (e : RedisEntry) :
    isDataEntry (dataKey x, e) = true := by
  rw [isDataEntry, matchesPrefix, dataKey, data_append]
  exact List.isPrefixOf_iff_prefix.mpr (List.prefix_append _ _)

theorem matchesPrefix_machine_statusKey (m : String) :
    matchesPrefix "machine:status:" (statusKey m) = false := by
  cases m; rfl

/-! Persistence of completion markers. -/

theorem dataPersistent_rget {s : RedisState} {x : String} {e : RedisEntry}
    (h : dataPersistent s) (hg : rget s (dataKey x) = some e) : e.expiresAt = none :=
  h _ (rget_mem hg) (isDataEntry_dataKey x e)

theorem dataPersistent_rset {s : RedisState} {k : String} {e : RedisEntry}
    (h : dataPersistent s) (hq : isDataEntry (k, e) = true → e.expiresAt = none) :
    dataPersistent (rset s k e) := by
  intro q hm hd
  rcases List.mem_cons.mp hm with rfl | hm'
  · exact hq hd
  · exact h q hm' hd

theorem dataPersistent_rdel {s : RedisState} {k : String}
    (h : dataPersistent s) : dataPersistent (rdel s k) := by
  intro q hm hd
  exact h q (List.mem_of_mem_filter hm) hd

theorem dataPersistent_markAppProcessing {s : RedisState} (mid app : String) (now : Nat)
    (h : dataPersistent s) : dataPersistent (markAppProcessing mid app now s) := by
  refine dataPersistent_rset h ?_
  intro habs
  rw [isDataEntry_processingKey] at habs
  cases habs

theorem dataPersistent_markAppCompleted {s : RedisState} (mid app : String)
    (d : AppData) (now : Nat)
    (h : dataPersistent s) : dataPersistent (markAppCompleted mid app d now s) := by
  refine dataPersistent_rdel (dataPersistent_rset h ?_)
  intro
  rfl

theorem dataPersistent_updateMachineStatus {s : RedisState} (mid : String)
    (st : MachineStatusVal) (now : Nat)
    (h : dataPersistent s) : dataPersistent (updateMachineStatus mid st now s) := by
  refine dataPersistent_rset h ?_
  intro habs
  rw [isDataEntry_statusKey] at habs
  cases habs

theorem dataPersistent_claimApp {s : RedisState} (mid app : String) (now : Nat)
    (h : dataPersistent s) : dataPersistent (claimApp mid app now s).2 := by
  rw [claimApp]
  split
  · exact h
  · split
    · exact h
    · exact dataPersistent_markAppProcessing mid app now h

theorem dataPersistent_applyOp {s : RedisState} (op : Op)
    (h : dataPersistent s) : dataPersistent (applyOp s op) := by
  cases op with
  | claim mid app now => exact dataPersistent_claimApp mid app now h
  | complete mid app d now => exact dataPersistent_markAppCompleted mid app d now h
  | release app => exact dataPersistent_rdel h
  | heartbeat mid st now => exact dataPersistent_updateMachineStatus mid st now h

theorem markerPersists_rset_ne {s : RedisState} {k : String} {e : RedisEntry} {app : String}
    (hne : k ≠ dataKey app) (h : markerPersists s app) : markerPersists (rset s k e) app := by
  obtain ⟨e₀, hg, hx⟩ := h
  refine ⟨e₀, ?_, hx⟩
  rw [rget_rset, if_neg hne, hg]

theorem markerPersists_rdel_ne {s : RedisState} {k : String} {app : String}
    (hne : dataKey app ≠ k) (h : markerPersists s app) : markerPersists (rdel s k) app := by
  obtain ⟨e₀, hg, hx⟩ := h
  refine ⟨e₀, ?_, hx⟩
  rw [rget_rdel, if_neg hne, hg]

theorem markerPersists_markAppProcessing {s : RedisState} {app' : String}
    (mid app : String) (now : Nat)
    (h : markerPersists s app') : markerPersists (markAppProcessing mid app now s) app' :=
  markerPersists_rset_ne (processingKey_ne_dataKey app app') h

theorem markerPersists_markAppCompleted_self (s : RedisState) (mid app : String)
    (d : AppData) (now : Nat) :
    markerPersists (markAppCompleted mid app d now s) app := by
  refine ⟨{ val := RVal.appData d mid now, expiresAt := none }, ?_, rfl⟩
  rw [markAppCompleted, rget_rdel,
    if_neg (fun hx => processingKey_ne_dataKey app app hx.symm),
    rget_rset, if_pos rfl]

theorem markerPersists_markAppCompleted {s : RedisState} {app' : String}
    (mid app : String) (d : AppData) (now : Nat)
    (h : markerPersists s app') : markerPersists (markAppCompleted mid app d now s) app' := by
  by_cases hk : dataKey app' = dataKey app
  · rw [dataKey_inj app' app hk]
    exact markerPersists_markAppCompleted_self s mid app d now
  · obtain ⟨e₀, hg, hx⟩ := h
    refine ⟨e₀, ?_, hx⟩
    rw [markAppCompleted, rget_rdel,
      if_neg (fun hx' => processingKey_ne_dataKey app app' hx'.symm),
      rget_rset, if_neg (fun hx' => hk hx'.symm), hg]

theorem markerPersists_claimApp {s : RedisState} {app' : String} (mid app : String) (now : Nat)
    (h : markerPersists s app') : markerPersists (claimApp mid app now s).2 app' := by
  rw [claimApp]
  split
  · exact h
  · split
    · exact h
    · exact markerPersists_markAppProcessing mid app now h

theorem markerPersists_applyOp {s : RedisState} {app' : String} (op : Op)
    (h : markerPersists s app') : markerPersists (applyOp s op) app' := by
  cases op with
  | claim mid app now => exact markerPersists_claimApp mid app now h
  | complete mid app d now => exact markerPersists_markAppCompleted mid app d now h
  | release app => exact markerPersists_rdel_ne (fun hx => processingKey_ne_dataKey app app' hx.symm) h
  | heartbeat mid st now => exact markerPersists_rset_ne (fun hx => statusKey_ne_dataKey mid app' hx) h

theorem markerPersists_existsLive {s : RedisState} {app : String}
    (h : markerPersists s app) (now : Nat) : existsLive s now (dataKey app) = true := by
  obtain ⟨e, hg, hx⟩ := h
  rw [existsLive, rgetLive, hg]
  simp [entryLive, hx]

theorem isCompleted_markerPersists {s : RedisState} {app : String} {now : Nat}
    (hp : dataPersistent s)
    (hc : (checkAppStatus s now app).isCompleted = true) : markerPersists s app := by
  rw [checkAppStatus] at hc
  simp only [existsLive, rgetLive] at hc
  cases hg : rget s (dataKey app) with
  | none => rw [hg] at hc; simp at hc
  | some e => exact ⟨e, hg, dataPersistent_rget hp hg⟩

end ZapierScraper

namespace ZapierScraper

/-! Preservation over operation sequences. -/

theorem runOps_persists (s : RedisState) (app : String) (ops : List Op)
    (hp : dataPersistent s) (hm : markerPersists s app) :
    dataPersistent (runOps s ops) ∧ markerPersists (runOps s ops) app := by
  induction ops generalizing s with
  | nil => exact ⟨hp, hm⟩
  | cons op rest ih =>
    exact ih (applyOp s op) (dataPersistent_applyOp op hp) (markerPersists_applyOp op hm)

theorem claimApp_conflict_of_completed {s : RedisState} {now : Nat} {app mid : String}
    (hc : (checkAppStatus s now app).isCompleted = true) :
    (claimApp mid app now s).1 = false ∧ (claimApp mid app now s).2 = s := by
  rw [claimApp]
  simp [hc]

/-- Invariant preservation through one processApp call (claim C6 backbone):
persistent markers stay persistent and the local cache stays sound. -/
theorem processApp_inv (mid app : String) (scrape : Nat → Option AppData) (now : Nat)
    (retryCount : Nat) (w : WorkerState)
    (h : dataPersistent w.redis ∧ cacheSound w) :
    dataPersistent (processApp mid app scrape now retryCount w).2.redis
      ∧ cacheSound (processApp mid app scrape now retryCount w).2 := by
  revert h
  induction retryCount, w using processApp.induct mid app scrape now with
  | case1 retryCount w hcache =>
    intro h
    rw [processApp, if_pos hcache]
    exact h
  | case2 retryCount w hnc st hcomp =>
    intro h
    have hcomp' : (checkAppStatus w.redis now app).isCompleted = true := hcomp
    rw [processApp, if_neg hnc, if_pos hcomp']
    refine ⟨h.1, ?_⟩
    intro name hmem
    simp only [markLocalCache] at hmem
    rcases List.mem_cons.mp hmem with rfl | hm'
    · exact ⟨app, rfl, isCompleted_markerPersists h.1 hcomp'⟩
    · exact h.2 name hm'
  | case3 retryCount w hnc st hcomp hproc =>
    intro h
    have hcomp' : ¬(checkAppStatus w.redis now app).isCompleted = true := hcomp
    have hproc' : (checkAppStatus w.redis now app).isProcessing = true := hproc
    rw [processApp, if_neg hnc, if_neg hcomp', if_pos hproc']
    exact h
  | case4 retryCount w hnc st hcomp hproc w1 hscrape hlt ih =>
    intro h
    have hcomp' : ¬(checkAppStatus w.redis now app).isCompleted = true := hcomp
    have hproc' : ¬(checkAppStatus w.redis now app).isProcessing = true := hproc
    rw [processApp, if_neg hnc, if_neg hcomp', if_neg hproc']
    simp only [hscrape]
    rw [dif_pos hlt]
    refine ih ⟨dataPersistent_markAppProcessing mid app now h.1, ?_⟩
    intro name hn
    obtain ⟨a', ha1, ha2⟩ := h.2 name hn
    exact ⟨a', ha1, markerPersists_markAppProcessing mid app now ha2⟩
  | case5 retryCount w hnc st hcomp hproc hscrape hge =>
    intro h
    have hcomp' : ¬(checkAppStatus w.redis now app).isCompleted = true := hcomp
    have hproc' : ¬(checkAppStatus w.redis now app).isProcessing = true := hproc
    rw [processApp, if_neg hnc, if_neg hcomp', if_neg hproc']
    simp only [hscrape]
    rw [dif_neg hge]
    refine ⟨dataPersistent_markAppProcessing mid app now h.1, ?_⟩
    intro name hn
    obtain ⟨a', ha1, ha2⟩ := h.2 name hn
    exact ⟨a', ha1, markerPersists_markAppProcessing mid app now ha2⟩
  | case6 retryCount w hnc st hcomp hproc d hscrape =>
    intro h
    have hcomp' : ¬(checkAppStatus w.redis now app).isCompleted = true := hcomp
    have hproc' : ¬(checkAppStatus w.redis now app).isProcessing = true := hproc
    rw [processApp, if_neg hnc, if_neg hcomp', if_neg hproc']
    simp only [hscrape]
    refine ⟨dataPersistent_markAppCompleted mid app d now
      (dataPersistent_markAppProcessing mid app now h.1), ?_⟩
    intro name hmem
    simp only [markLocalCache] at hmem
    rcases List.mem_cons.mp hmem with rfl | hm'
    · exact ⟨app, rfl, markerPersists_markAppCompleted_self _ mid app d now⟩
    · obtain ⟨a', ha1, ha2⟩ := h.2 name hm'
      exact ⟨a', ha1, markerPersists_markAppCompleted mid app d now
        (markerPersists_markAppProcessing mid app now ha2)⟩

theorem applyWOp_inv (w : WorkerState) (wop : WOp)
    (h : dataPersistent w.redis ∧ cacheSound w) :
    dataPersistent (applyWOp w wop).redis ∧ cacheSound (applyWOp w wop) := by
  cases wop with
  | process mid app scrape now => exact processApp_inv mid app scrape now 0 w h
  | foreign op =>
    refine ⟨dataPersistent_applyOp op h.1, ?_⟩
    intro name hn
    obtain ⟨a', ha1, ha2⟩ := h.2 name hn
    exact ⟨a', ha1, markerPersists_applyOp op ha2⟩

theorem runWOps_inv (w : WorkerState) (ops : List WOp)
    (h : dataPersistent w.redis ∧ cacheSound w) :
    dataPersistent (runWOps w ops).redis ∧ cacheSound (runWOps w ops) := by
  induction ops generalizing w with
  | nil => exact h
  | cons op rest ih => exact ih (applyWOp w op) (applyWOp_inv w op h)

theorem initWorker_inv : dataPersistent initWorker.redis ∧ cacheSound initWorker := by
  constructor
  · intro q hm
    simp [initWorker] at hm
  · intro name hn
    simp [initWorker] at hn

end ZapierScraper

namespace ZapierScraper

/-! Branch-evaluation lemmas for the claim sequence and the worker loop. -/

theorem claimApp_conflict_of_processing {s : RedisState} {now : Nat} {app mid : String}
    (hp : (checkAppStatus s now app).isProcessing = true) :
    (claimApp mid app now s).1 = false := by
  simp only [claimApp]
  split <;> simp_all

theorem claimApp_success_of_free {s : RedisState} {now : Nat} {app mid : String}
    (hc : (checkAppStatus s now app).isCompleted = false)
    (hp : (checkAppStatus s now app).isProcessing = false) :
    (claimApp mid app now s).1 = true
    ∧ (claimApp mid app now s).2 = markAppProcessing mid app now s := by
  simp only [claimApp]
  rw [if_neg (by simp [hc]), if_neg (by simp [hp])]
  exact ⟨rfl, rfl⟩

theorem rget_markAppProcessing_data (mid app : String) (now : Nat) (s : RedisState) :
    rget (markAppProcessing mid app now s) (dataKey app) = rget s (dataKey app) := by
  rw [markAppProcessing, rget_rset, if_neg (processingKey_ne_dataKey app app)]

theorem rget_markAppProcessing_self (mid app : String) (now : Nat) (s : RedisState) :
    rget (markAppProcessing mid app now s) (processingKey app)
      = some { val := RVal.lease mid now, expiresAt := some (now + PROCESSING_EXPIRY) } := by
  rw [markAppProcessing, rget_rset, if_pos rfl]

theorem rget_markAppCompleted_data (mid app : String) (d : AppData) (now : Nat)
    (s : RedisState) :
    rget (markAppCompleted mid app d now s) (dataKey app)
      = some { val := RVal.appData d mid now, expiresAt := none } := by
  rw [markAppCompleted, rget_rdel,
    if_neg (fun hx => processingKey_ne_dataKey app app hx.symm),
    rget_rset, if_pos rfl]

theorem rget_markAppCompleted_lease (mid app : String) (d : AppData) (now : Nat)
    (s : RedisState) :
    rget (markAppCompleted mid app d now s) (processingKey app) = none := by
  rw [markAppCompleted, rget_rdel, if_pos rfl]

theorem isCompleted_markAppProcessing (mid app : String) (t0 now : Nat) (s : RedisState) :
    (checkAppStatus (markAppProcessing mid app t0 s) now app).isCompleted
      = existsLive s now (dataKey app) := by
  show existsLive _ now (dataKey app) = existsLive s now (dataKey app)
  rw [existsLive, existsLive, rgetLive, rgetLive, rget_markAppProcessing_data]

theorem isProcessing_markAppProcessing_live (mid app : String) (t0 now : Nat) (s : RedisState)
    (hlt : now < t0 + PROCESSING_EXPIRY) :
    (checkAppStatus (markAppProcessing mid app t0 s) now app).isProcessing = true := by
  show existsLive _ now (processingKey app) = true
  rw [existsLive, rgetLive, rget_markAppProcessing_self]
  simp [entryLive, hlt]

theorem isProcessing_markAppProcessing_expired (mid app : String) (t0 now : Nat) (s : RedisState)
    (hgt : ¬now < t0 + PROCESSING_EXPIRY) :
    (checkAppStatus (markAppProcessing mid app t0 s) now app).isProcessing = false := by
  show existsLive _ now (processingKey app) = false
  rw [existsLive, rgetLive, rget_markAppProcessing_self]
  simp [entryLive, hgt]

theorem processApp_skips_when_processing (mid app : String) (scrape : Nat → Option AppData)
    (now retryCount : Nat) (w : WorkerState)
    (hcache : checkLocalCache w app = false)
    (hcomp : (checkAppStatus w.redis now app).isCompleted = false)
    (hproc : (checkAppStatus w.redis now app).isProcessing = true) :
    processApp mid app scrape now retryCount w = ({ processed := false, skipped := true }, w) := by
  rw [processApp, if_neg (by simp [hcache]), if_neg (by simp [hcomp]), if_pos hproc]

theorem processApp_success_run (mid app : String) (scrape : Nat → Option AppData)
    (now retryCount : Nat) (w : WorkerState)
    (hcache : checkLocalCache w app = false)
    (hcomp : (checkAppStatus w.redis now app).isCompleted = false)
    (hproc : (checkAppStatus w.redis now app).isProcessing = false)
    (d : AppData) (hs : scrape retryCount = some d) :
    processApp mid app scrape now retryCount w
      = ({ processed := true, skipped := false },
         { redis := markAppCompleted mid app d now (markAppProcessing mid app now w.redis),
           localCache := lowerName app :: w.localCache,
           processedCount := w.processedCount + 1,
           failedCount := w.failedCount }) := by
  rw [processApp, if_neg (by simp [hcache]), if_neg (by simp [hcomp]), if_neg (by simp [hproc])]
  simp only [hs]
  rfl

end ZapierScraper

namespace ZapierScraper

/-- Claim C1 (code bug).  The claim requires the claim operation to be one
atomic set-if-absent-with-ttl that returns conflict and leaves a live lease
untouched.  The code instead reads checkAppStatus and then runs
markAppProcessing, a plain SET EX with no NX flag.  Concretely: two holders
m1 and m2 both observe item "shopify" free on the same snapshot; m1 writes
its lease; m2's subsequent write does not conflict but silently replaces
m1's live lease, so both claim attempts succeed. -/
theorem claim_check_then_set_race :
    claimCheckFree [] 0 "shopify" = true
    ∧ leaseHolder (markAppProcessing "m1" "shopify" 0 []) 0 "shopify" = some "m1"
    ∧ (checkAppStatus (markAppProcessing "m1" "shopify" 0 []) 0 "shopify").isProcessing = true
    ∧ leaseHolder
        (markAppProcessing "m2" "shopify" 0 (markAppProcessing "m1" "shopify" 0 [])) 0 "shopify"
      = some "m2" := by
  decide

/-- Claim C2 (confirmed).  markAppCompleted is a single MULTI transaction
(one transition of the embedding): in the state it returns, the completion
marker for the item exists (at every read time, it carries no expiry) and
the lease record is gone, for every starting store. -/
theorem markAppCompleted_transaction (mid app : String) (d : AppData)
    (now now' : Nat) (s : RedisState) :
    existsLive (markAppCompleted mid app d now s) now' (dataKey app) = true
    ∧ existsLive (markAppCompleted mid app d now s) now' (processingKey app) = false
    ∧ checkAppStatus (markAppCompleted mid app d now s) now' app
      = { isProcessing := false, isCompleted := true } := by
  have h1 := rget_markAppCompleted_lease mid app d now s
  have h2 := rget_markAppCompleted_data mid app d now s
  refine ⟨?_, ?_, ?_⟩
  · rw [existsLive, rgetLive, h2]
    simp [entryLive]
  · rw [existsLive, rgetLive, h1]
    rfl
  · rw [checkAppStatus]
    simp only [existsLive, rgetLive, h1, h2]
    simp [entryLive]

/-- Claim C10 (confirmed).  RedisService.updateMachineStatus stores the
heartbeat under status:machine_id, which the glob machine:status:* that
monitor.js enumerates can never match; hence a heartbeat write never
changes the key list the monitor's machine table is built from. -/
theorem heartbeat_key_never_in_monitor_scan (mid : String) (st : MachineStatusVal)
    (now : Nat) (s : RedisState) :
    matchesPrefix "machine:status:" (statusKey mid) = false
    ∧ monitorMachineKeys (updateMachineStatus mid st now s) = monitorMachineKeys s := by
  refine ⟨matchesPrefix_machine_statusKey mid, ?_⟩
  rw [monitorMachineKeys, monitorMachineKeys, updateMachineStatus, rset]
  rw [List.filter_cons_of_neg]
  simp [matchesPrefix_machine_statusKey]

/-- Claim C7 (confirmed).  The monitor displays a worker active exactly when
now - last_active is strictly below MACHINE_INACTIVE_THRESHOLD = 90000 ms,
as a pure derivation from the heartbeat record; with last_active fixed, a
worker active at a later instant was active at every earlier one, so the
displayed status flips from active to inactive exactly when the threshold
is crossed and never before. -/
theorem monitor_active_iff_threshold (now last_active now' : Int)
    (h : now ≤ now') :
    MACHINE_INACTIVE_THRESHOLD = 90000
    ∧ (isActive now last_active = true ↔ now - last_active < 90000)
    ∧ (statusCell now last_active = "●" ↔ now - last_active < 90000)
    ∧ (isActive now' last_active = true → isActive now last_active = true) := by
  have hiff : ∀ t : Int, isActive t last_active = true ↔ t - last_active < 90000 := by
    intro t
    simp [isActive, MACHINE_INACTIVE_THRESHOLD]
  refine ⟨rfl, hiff now, ?_, ?_⟩
  · rw [statusCell]
    by_cases hh : isActive now last_active = true
    · rw [if_pos hh]
      exact ⟨fun _ => (hiff now).mp hh, fun _ => rfl⟩
    · rw [if_neg hh]
      constructor
      · intro habs
        exact absurd habs (by decide)
      · intro hc
        exact absurd ((hiff now).mpr hc) hh
  · intro ha
    have h2 := (hiff now').mp ha
    exact (hiff now).mpr (by omega)

theorem monitor_active_iff_threshold_witness :
    (MACHINE_INACTIVE_THRESHOLD = 90000
      ∧ (isActive 100000 20000 = true ↔ (100000 : Int) - 20000 < 90000)
      ∧ (statusCell 100000 20000 = "●" ↔ (100000 : Int) - 20000 < 90000)
      ∧ (isActive 150000 20000 = true → isActive 100000 20000 = true)) :=
  monitor_active_iff_threshold 100000 20000 150000 (by decide)

/-- Claim C8 (confirmed).  Running markAppCompleted a second time on a state
that already holds the completion marker is safe: the marker is overwritten
with the new payload, the DEL of the now-absent lease key is a harmless
no-op, every other key is untouched, and a repeat with identical arguments
leaves the store observationally unchanged. -/
theorem markAppCompleted_idempotent (mid mid2 app : String) (d d2 : AppData)
    (now now2 now' : Nat) (s : RedisState) :
    rget (markAppCompleted mid2 app d2 now2 (markAppCompleted mid app d now s)) (dataKey app)
      = some { val := RVal.appData d2 mid2 now2, expiresAt := none }
    ∧ rget (markAppCompleted mid2 app d2 now2 (markAppCompleted mid app d now s))
        (processingKey app) = none
    ∧ (∀ k, k ≠ dataKey app →
        rget (markAppCompleted mid2 app d2 now2 (markAppCompleted mid app d now s)) k
          = rget (markAppCompleted mid app d now s) k)
    ∧ (∀ k, rget (markAppCompleted mid app d now (markAppCompleted mid app d now s)) k
          = rget (markAppCompleted mid app d now s) k)
    ∧ checkAppStatus (markAppCompleted mid2 app d2 now2 (markAppCompleted mid app d now s))
        now' app = { isProcessing := false, isCompleted := true } := by
  have hsame : ∀ (m m2 : String) (x x2 : AppData) (t t2 : Nat) (k : String),
      k ≠ dataKey app →
      rget (markAppCompleted m2 app x2 t2 (markAppCompleted m app x t s)) k
        = rget (markAppCompleted m app x t s) k := by
    intro m m2 x x2 t t2 k hk
    by_cases hk2 : k = processingKey app
    · rw [hk2, rget_markAppCompleted_lease, rget_markAppCompleted_lease]
    · rw [markAppCompleted, rget_rdel, if_neg hk2, rget_rset,
        if_neg (fun hx => hk hx.symm)]
  refine ⟨rget_markAppCompleted_data mid2 app d2 now2 _, rget_markAppCompleted_lease mid2 app d2 now2 _,
    hsame mid mid2 d d2 now now2, ?_, ?_⟩
  · intro k
    by_cases hk : k = dataKey app
    · rw [hk, rget_markAppCompleted_data, rget_markAppCompleted_data]
    · exact hsame mid mid d d now now k hk
  · have h1 := rget_markAppCompleted_lease mid2 app d2 now2 (markAppCompleted mid app d now s)
    have h2 := rget_markAppCompleted_data mid2 app d2 now2 (markAppCompleted mid app d now s)
    rw [checkAppStatus]
    simp only [existsLive, rgetLive, h1, h2]
    simp [entryLive]

theorem markAppCompleted_idempotent_witness :
    rget (markAppCompleted "m2" "shopify" "p2" 9 (markAppCompleted "m1" "shopify" "p1" 3 []))
        (dataKey "shopify")
      = some { val := RVal.appData "p2" "m2" 9, expiresAt := none }
    ∧ rget (markAppCompleted "m2" "shopify" "p2" 9 (markAppCompleted "m1" "shopify" "p1" 3 []))
        (processingKey "other")
      = rget (markAppCompleted "m1" "shopify" "p1" 3 []) (processingKey "other") := by
  have h := markAppCompleted_idempotent "m1" "m2" "shopify" "p1" "p2" 3 9 0 []
  exact ⟨h.1, h.2.2.1 (processingKey "other")
    (fun hx => processingKey_ne_dataKey "other" "shopify" hx)⟩

/-- Claim C9 counterexample (claim corrected).  The claim says identifiers
are lowercased before use as key suffixes in every store operation.  In the
code only the local lock cache normalizes: RedisService interpolates the
identifier verbatim, so "Shopify" and "shopify" address distinct lease
records — a claim marked under "Shopify" is invisible to a status check
for "shopify", while the local cache treats the two as one item. -/
theorem case_normalization_counterexample :
    processingKey "Shopify" ≠ processingKey "shopify"
    ∧ (checkAppStatus (markAppProcessing "m1" "Shopify" 0 []) 0 "Shopify").isProcessing = true
    ∧ (checkAppStatus (markAppProcessing "m1" "Shopify" 0 []) 0 "shopify").isProcessing = false
    ∧ lowerName "Shopify" = lowerName "shopify" := by
  decide

/-- Claim C9 as amended: identifiers are case-normalized before use in the
local fast-path cache (check and mark agree on any two spellings with the
same lowercase form), but the store operations of RedisService use the
identifier verbatim — the key constructors are injective on the raw string,
so spellings differing in case denote distinct store records. -/
theorem case_normalization_amended (w : WorkerState) (a b : String)
    (h : lowerName a = lowerName b) :
    checkLocalCache w a = checkLocalCache w b
    ∧ markLocalCache w a = markLocalCache w b
    ∧ (∀ x y : String, processingKey x = processingKey y → x = y)
    ∧ (∀ x y : String, dataKey x = dataKey y → x = y) := by
  refine ⟨?_, ?_, processingKey_inj, dataKey_inj⟩
  · rw [checkLocalCache, checkLocalCache, h]
  · rw [markLocalCache, markLocalCache, h]

theorem case_normalization_amended_witness :
    checkLocalCache initWorker "Shopify" = checkLocalCache initWorker "shopify"
    ∧ markLocalCache initWorker "Shopify" = markLocalCache initWorker "shopify" := by
  have h := case_normalization_amended initWorker "Shopify" "shopify" (by decide)
  exact ⟨h.1, h.2.1⟩

end ZapierScraper

namespace ZapierScraper

/-- Claim C3 (confirmed).  Completion is terminal: from any store whose
completion markers are persistent (an invariant of every coordinator
write, since markAppCompleted sets no TTL), once checkAppStatus reports
the item completed, it still reports it completed at every later time
after any sequence of coordinator operations by any machines, and every
later claim attempt returns conflict. -/
theorem completion_terminal (s : RedisState) (app : String) (now₀ : Nat)
    (hpers : dataPersistent s)
    (hc : (checkAppStatus s now₀ app).isCompleted = true) :
    ∀ (ops : List Op) (now : Nat) (mid : String),
      (checkAppStatus (runOps s ops) now app).isCompleted = true
      ∧ (claimApp mid app now (runOps s ops)).1 = false := by
  intro ops now mid
  have hm : markerPersists s app := isCompleted_markerPersists hpers hc
  obtain ⟨hp', hm'⟩ := runOps_persists s app ops hpers hm
  have hcomp : (checkAppStatus (runOps s ops) now app).isCompleted = true :=
    markerPersists_existsLive hm' now
  exact ⟨hcomp, (claimApp_conflict_of_completed hcomp).1⟩

theorem completion_terminal_witness :
    (checkAppStatus (runOps (markAppCompleted "m0" "shopify" "payload" 5 [])
        [Op.claim "m1" "shopify" 10, Op.release "shopify",
         Op.heartbeat "m1" ⟨"m1", 0, 0, 0, 0, none, none⟩ 20,
         Op.complete "m2" "other" "q" 30]) 999999 "shopify").isCompleted = true
    ∧ (claimApp "m3" "shopify" 999999 (runOps (markAppCompleted "m0" "shopify" "payload" 5 [])
        [Op.claim "m1" "shopify" 10, Op.release "shopify",
         Op.heartbeat "m1" ⟨"m1", 0, 0, 0, 0, none, none⟩ 20,
         Op.complete "m2" "other" "q" 30])).1 = false :=
  completion_terminal (markAppCompleted "m0" "shopify" "payload" 5 []) "shopify" 5
    (by decide) (by decide)
    [Op.claim "m1" "shopify" 10, Op.release "shopify",
     Op.heartbeat "m1" ⟨"m1", 0, 0, 0, 0, none, none⟩ 20,
     Op.complete "m2" "other" "q" 30] 999999 "m3"

/-- Claim C5 (confirmed).  A lease taken by markAppProcessing at t0 carries
ttl PROCESSING_EXPIRY = 3600: while now < t0 + ttl the item reads as
processing and any claim attempt (by any holder) conflicts; at any
now > t0 + ttl the lease has expired, so — provided the item was never
completed — the status read shows no lease and a claim by a different
holder succeeds. -/
theorem lease_self_heals (s0 : RedisState) (mid mid2 app : String) (t0 now : Nat) :
    PROCESSING_EXPIRY = 3600
    ∧ (now < t0 + PROCESSING_EXPIRY →
        (checkAppStatus (markAppProcessing mid app t0 s0) now app).isProcessing = true
        ∧ (claimApp mid2 app now (markAppProcessing mid app t0 s0)).1 = false)
    ∧ (t0 + PROCESSING_EXPIRY < now →
        existsLive s0 now (dataKey app) = false →
        (checkAppStatus (markAppProcessing mid app t0 s0) now app).isProcessing = false
        ∧ (claimApp mid2 app now (markAppProcessing mid app t0 s0)).1 = true) := by
  refine ⟨rfl, ?_, ?_⟩
  · intro hlt
    have hp := isProcessing_markAppProcessing_live mid app t0 now s0 hlt
    exact ⟨hp, claimApp_conflict_of_processing hp⟩
  · intro hgt hnc
    have hp := isProcessing_markAppProcessing_expired mid app t0 now s0 (by omega)
    have hc : (checkAppStatus (markAppProcessing mid app t0 s0) now app).isCompleted = false := by
      rw [isCompleted_markAppProcessing]
      exact hnc
    exact ⟨hp, (claimApp_success_of_free hc hp).1⟩

theorem lease_self_heals_witness :
    ((checkAppStatus (markAppProcessing "m1" "shopify" 0 []) 3599 "shopify").isProcessing = true)
    ∧ ((claimApp "m2" "shopify" 3599 (markAppProcessing "m1" "shopify" 0 [])).1 = false)
    ∧ ((checkAppStatus (markAppProcessing "m1" "shopify" 0 []) 3601 "shopify").isProcessing = false)
    ∧ ((claimApp "m2" "shopify" 3601 (markAppProcessing "m1" "shopify" 0 [])).1 = true) := by
  have h1 := (lease_self_heals [] "m1" "m2" "shopify" 0 3599).2.1 (by decide)
  have h2 := (lease_self_heals [] "m1" "m2" "shopify" 0 3601).2.2 (by decide) (by decide)
  exact ⟨h1.1, h1.2, h2.1, h2.2⟩

theorem processApp_failure_aux (mid app : String) (scrape : Nat → Option AppData)
    (now : Nat) (w : WorkerState)
    (hcache : checkLocalCache w app = false)
    (hcomp : (checkAppStatus w.redis now app).isCompleted = false)
    (hproc : (checkAppStatus w.redis now app).isProcessing = false)
    (hfail : scrape 0 = none)
    (hlive : now < now + PROCESSING_EXPIRY) :
    processApp mid app scrape now 0 w
      = ({ processed := false, skipped := true },
         { redis := markAppProcessing mid app now w.redis,
           localCache := w.localCache,
           processedCount := w.processedCount,
           failedCount := w.failedCount }) := by
  rw [processApp, if_neg (by simp [hcache]), if_neg (by simp [hcomp]), if_neg (by simp [hproc])]
  simp only [hfail]
  rw [dif_pos (show 0 < MAX_RETRIES by decide)]
  apply processApp_skips_when_processing
  · exact hcache
  · show (checkAppStatus (markAppProcessing mid app now w.redis) now app).isCompleted = false
    rw [isCompleted_markAppProcessing]
    exact hcomp
  · exact isProcessing_markAppProcessing_live mid app now now w.redis hlive

/-- Claim C4 (code bug).  When the scraper fails for an item, processApp in
the distributed scraper neither releases the lease nor ends up marking the
item failed: the recursive retry re-reads the store, finds the worker's own
lease live, and returns skipped, leaving failedCount untouched and the
lease record app:processing:shopify live (held by the same worker) for its
whole 3600-second ttl — contradicting the claimed release-retry-fail
handling. -/
theorem failure_leaves_lease_dangling :
    (processApp "m1" "shopify" (fun _ => none) 0 0 initWorker).1
      = { processed := false, skipped := true }
    ∧ (processApp "m1" "shopify" (fun _ => none) 0 0 initWorker).2.failedCount = 0
    ∧ (checkAppStatus (processApp "m1" "shopify" (fun _ => none) 0 0 initWorker).2.redis
        0 "shopify").isProcessing = true
    ∧ leaseHolder (processApp "m1" "shopify" (fun _ => none) 0 0 initWorker).2.redis
        0 "shopify" = some "m1"
    ∧ existsLive (processApp "m1" "shopify" (fun _ => none) 0 0 initWorker).2.redis
        3599 (processingKey "shopify") = true := by
  have h := processApp_failure_aux "m1" "shopify" (fun _ => none) 0 initWorker
    (by decide) (by decide) (by decide) rfl (by decide)
  rw [h]
  decide

/-- Claim C6 (confirmed).  Local-cache soundness: in every state a worker
can reach from a fresh start by running processApp (with any scrape
outcomes) interleaved with store operations of other machines, if
checkLocalCache reports an item complete then the shared store holds a
completion marker under a name with the same normalization, live at every
read time — the cache is written only when the worker observes or itself
writes that marker. -/
theorem local_cache_sound (ops : List WOp) (app : String) (now : Nat)
    (h : checkLocalCache (runWOps initWorker ops) app = true) :
    ∃ app', lowerName app' = lowerName app
      ∧ existsLive (runWOps initWorker ops).redis now (dataKey app') = true := by
  obtain ⟨hp, hs⟩ := runWOps_inv initWorker ops initWorker_inv
  have hmem : lowerName app ∈ (runWOps initWorker ops).localCache := by
    rw [checkLocalCache] at h
    exact List.elem_iff.mp h
  obtain ⟨app', ha1, ha2⟩ := hs _ hmem
  exact ⟨app', ha1, markerPersists_existsLive ha2 now⟩

theorem local_cache_sound_witness :
    checkLocalCache (runWOps initWorker [WOp.process "m1" "shopify" (fun _ => some "p") 0])
      "shopify" = true
    ∧ ∃ app', lowerName app' = lowerName "shopify"
        ∧ existsLive (runWOps initWorker
            [WOp.process "m1" "shopify" (fun _ => some "p") 0]).redis 7200
            (dataKey app') = true := by
  have hrun : runWOps initWorker [WOp.process "m1" "shopify" (fun _ => some "p") 0]
      = { redis := markAppCompleted "m1" "shopify" "p" 0 (markAppProcessing "m1" "shopify" 0 []),
          localCache := [lowerName "shopify"],
          processedCount := 1, failedCount := 0 } := by
    show (processApp "m1" "shopify" (fun _ => some "p") 0 0 initWorker).2 = _
    rw [processApp_success_run "m1" "shopify" (fun _ => some "p") 0 0 initWorker
      (by decide) (by decide) (by decide) "p" rfl]
    rfl
  have hc : checkLocalCache (runWOps initWorker
      [WOp.process "m1" "shopify" (fun _ => some "p") 0]) "shopify" = true := by
    rw [hrun]
    decide
  exact ⟨hc, local_cache_sound [WOp.process "m1" "shopify" (fun _ => some "p") 0] "shopify" 7200 hc⟩

end ZapierScraper
